import Mathlib

set_option autoImplicit false

/-!
Verification of the `DataContext` record store (src/data_context.py).

The development embeds the Python module shallowly:

* `PyVal` models the dynamically typed Python values that flow through the
  store and the query helpers: `None`, booleans, integers, text strings,
  byte strings, lists, tuples and (string-keyed) dicts.  Floats, sets and
  user-defined objects do not occur in the module's data model (records are
  dicts of database row values) and are not modelled.
* `pyEq` models the Python equality operator on those values.  Python's
  `==` is structural on each kind, except that `bool` is a subtype of
  `int`, so `True == 1` and `False == 0` hold; distinct kinds are otherwise
  unequal.  Dict equality compares key sets and the values at equal keys
  (insertion order is irrelevant); for the association lists used here the
  comparison is length equality plus pointwise containment, which agrees
  with Python on dicts (whose keys are unique).
* The class `DataContext` becomes a structure holding its `_data` dict,
  plus pure functions; the class-level `_instance` attribute is modelled as
  an `Option DataContext` threaded through `DataContext.new`.
* `find` / `filter` return `Except PyErr _`: `PyErr.valueError` mirrors
  the two `ValueError` raises of the validation block, and
  `PyErr.typeError` mirrors the `TypeError` that `r.get(k)` raises when a
  condition key is unhashable (a list or dict, or a tuple containing one).
  The scan helpers (`condPairs`, `firstMatch`, `filterMatch`) reproduce
  the generator's left-to-right, short-circuiting evaluation order, so an
  exception surfaces exactly when Python would reach the offending
  `r.get`.  Successful calls also return the (unchanged) state so that
  frame and noninterference properties can be stated.
-/

/-- Python runtime values occurring in the `data_context` module. -/
inductive PyVal where
  | none : PyVal
  | bool : Bool → PyVal
  | int : Int → PyVal
  | str : String → PyVal
  | bytes : List Nat → PyVal
  | list : List PyVal → PyVal
  | tuple : List PyVal → PyVal
  | dict : List (String × PyVal) → PyVal
  deriving Repr

mutual

/-- Python equality `==` on `PyVal`.  Structural on each kind; booleans
compare equal to their numeric value as integers (`True == 1`,
`False == 0`); values of otherwise distinct kinds are unequal.  Dicts are
equal when they have the same number of entries and each entry of one
occurs (same key, `pyEq`-equal value) in the other, which coincides with
Python dict equality since Python dict keys are unique. -/
def pyEq : PyVal → PyVal → Bool
  | PyVal.none, PyVal.none => true
  | PyVal.bool a, PyVal.bool b => a == b
  | PyVal.bool a, PyVal.int n => (if a then (1 : Int) else 0) == n
  | PyVal.int m, PyVal.bool b => m == (if b then (1 : Int) else 0)
  | PyVal.int m, PyVal.int n => m == n
  | PyVal.str a, PyVal.str b => a == b
  | PyVal.bytes a, PyVal.bytes b => a == b
  | PyVal.list xs, PyVal.list ys => pyEqList xs ys
  | PyVal.tuple xs, PyVal.tuple ys => pyEqList xs ys
  | PyVal.dict d1, PyVal.dict d2 => d1.length == d2.length && pyEqDictSub d1 d2
  | _, _ => false
termination_by a b => sizeOf a + sizeOf b

/-- Elementwise Python equality of two sequences (list/tuple contents). -/
def pyEqList : List PyVal → List PyVal → Bool
  | [], [] => true
  | x :: xs, y :: ys => pyEq x y && pyEqList xs ys
  | _, _ => false
termination_by xs ys => sizeOf xs + sizeOf ys

/-- Does every entry of the first dict occur in the second (same key,
`pyEq`-equal value)? -/
def pyEqDictSub : List (String × PyVal) → List (String × PyVal) → Bool
  | [], _ => true
  | (k, v) :: ps, d2 => pyEqFindKey k v d2 && pyEqDictSub ps d2
termination_by d1 d2 => sizeOf d1 + sizeOf d2

/-- Does the dict contain an entry with the given key and a `pyEq`-equal
value? -/
def pyEqFindKey : String → PyVal → List (String × PyVal) → Bool
  | _, _, [] => false
  | k, v, (k2, v2) :: qs => (k == k2 && pyEq v v2) || pyEqFindKey k v qs
termination_by _ v d => sizeOf v + sizeOf d

end

/-- Is the value a text string? (`isinstance(x, str)`) -/
def isStr : PyVal → Bool
  | PyVal.str _ => true
  | _ => false

/-- Is the value a byte string? (`isinstance(x, bytes)`) -/
def isBytes : PyVal → Bool
  | PyVal.bytes _ => true
  | _ => false

/-- Is the value a dict? (`isinstance(x, dict)`) -/
def isDict : PyVal → Bool
  | PyVal.dict _ => true
  | _ => false

/-- Model of `isinstance(x, Iterable)`: strings, byte strings, lists,
tuples and dicts are iterable; `None`, booleans and integers are not. -/
def isIterable : PyVal → Bool
  | PyVal.str _ => true
  | PyVal.bytes _ => true
  | PyVal.list _ => true
  | PyVal.tuple _ => true
  | PyVal.dict _ => true
  | _ => false

/-- Model of `isinstance(x, (str, bytes, dict))`, the exclusion tuple used
by `_match`, `find` and `filter`. -/
def isStrBytesDict (x : PyVal) : Bool :=
  isStr x || isBytes x || isDict x

/-- Python iteration order of an iterable value, as used by `list(x)` and
`x in cond`: a list or tuple yields its elements, a string its one-character
substrings, a byte string its integers, a dict its keys.  Non-iterables
raise `TypeError` in Python; every call site below is guarded by
`isIterable`, so the `[]` default is unreachable. -/
def iterElems : PyVal → List PyVal
  | PyVal.list es => es
  | PyVal.tuple es => es
  | PyVal.str s => s.toList.map (fun c => PyVal.str (String.mk [c]))
  | PyVal.bytes bs => bs.map (fun b => PyVal.int b)
  | PyVal.dict d => d.map (fun p => PyVal.str p.1)
  | _ => []

/-- Python exceptions raised by the module: the `ValueError`s of the
validation block, and the `TypeError` raised by `dict.get` on an
unhashable key. -/
inductive PyErr where
  | valueError : String → PyErr
  | typeError : String → PyErr
  deriving Repr, DecidableEq

/-- Python type name of a value, as it appears in the `TypeError`
message. -/
def pyTypeName : PyVal → String
  | PyVal.none => "NoneType"
  | PyVal.bool _ => "bool"
  | PyVal.int _ => "int"
  | PyVal.str _ => "str"
  | PyVal.bytes _ => "bytes"
  | PyVal.list _ => "list"
  | PyVal.tuple _ => "tuple"
  | PyVal.dict _ => "dict"

mutual

/-- Model of hashing a value, as `dict.get` does to its key: `some u` when
hashing raises `TypeError: unhashable type` — `u` is the unhashable value
whose type the message names — and `Option.none` when the value is
hashable.  Lists and dicts are unhashable; a tuple hashes its elements and
fails on the first unhashable one; `None`, booleans, integers, strings and
byte strings are hashable. -/
def hashCheck : PyVal → Option PyVal
  | PyVal.list es => some (PyVal.list es)
  | PyVal.dict d => some (PyVal.dict d)
  | PyVal.tuple es => hashCheckList es
  | _ => Option.none
termination_by v => sizeOf v

/-- First unhashable element among a tuple's contents, if any. -/
def hashCheckList : List PyVal → Option PyVal
  | [] => Option.none
  | e :: rest =>
    match hashCheck e with
    | some u => some u
    | Option.none => hashCheckList rest
termination_by es => sizeOf es

end

/-- A record: a Python dict mapping field names (strings) to values,
represented as an association list in insertion order.  Python dict keys
are unique, so well-formed records have no duplicate keys. -/
abbrev Record := List (String × PyVal)

/-- First-occurrence lookup in an association list (Python dict lookup;
on dicts with unique keys the first occurrence is the only one). -/
def lookupStr : List (String × PyVal) → String → Option PyVal
  | [], _ => Option.none
  | (k2, v) :: rest, k => if k2 = k then some v else lookupStr rest k

/-- Lookup step of `r.get(k)` for a record `r`, after the key has been
hashed: the stored value when `k` is a string key of `r`, and `None`
otherwise — record keys are strings, so a hashable non-string key (an
int, bool, `None`, bytes or all-hashable tuple) misses.  `r.get(k)` first
hashes `k` and raises `TypeError` on an unhashable key; that step is
modelled by `hashCheck`, which every call site below consults before this
lookup, so this function is only reached with hashable keys. -/
def recordGet (r : Record) (k : PyVal) : PyVal :=
  match k with
  | PyVal.str s => (lookupStr r s).getD PyVal.none
  | _ => PyVal.none

/-- Assignment `d[key] = value` on a Python dict: replace the value at an
existing key in place, otherwise append the new entry (insertion order). -/
def pyDictSet : List (String × PyVal) → String → PyVal → List (String × PyVal)
  | [], k, v => [(k, v)]
  | (k2, v2) :: rest, k, v =>
    if k2 = k then (k, v) :: rest else (k2, v2) :: pyDictSet rest k v

/-- Lookup `d.get(key, default)` on a Python dict. -/
def pyDictGet : List (String × PyVal) → String → PyVal → PyVal
  | [], _, default => default
  | (k2, v2) :: rest, k, default => if k2 = k then v2 else pyDictGet rest k default

/-- Instance state of the `DataContext` class: its `_data` dict, mapping
string keys to arbitrary stored values. -/
structure DataContext where
  _data : List (String × PyVal)

/-- Constructor `DataContext.__new__`: the class attribute `_instance` is the input;
when it is unset a fresh instance with an empty `_data` dict is created and
cached, otherwise the cached instance is returned untouched.  The result is
the returned instance paired with the updated class attribute. -/
def DataContext.new : Option DataContext → DataContext × Option DataContext
  | Option.none => ({ _data := [] }, some { _data := [] })
  | some inst => (inst, some inst)

/-- Iterated construction: `n` further construction requests after an
initial one, starting from class attribute state `st`. -/
def constructN : Nat → Option DataContext → DataContext × Option DataContext
  | 0, st => DataContext.new st
  | n + 1, st => constructN n (DataContext.new st).2

/-- Method `DataContext.set`: `self._data[key] = value`. -/
def DataContext.set (self : DataContext) (key : String) (value : PyVal) : DataContext :=
  { _data := pyDictSet self._data key value }

/-- Method `DataContext.get`: `self._data.get(key, default)`. -/
def DataContext.get (self : DataContext) (key : String) (default : PyVal) : PyVal :=
  pyDictGet self._data key default

/-- Method `DataContext.deinit`: `self._data.clear()`. -/
def DataContext.deinit (self : DataContext) : DataContext :=
  { self with _data := [] }

/-- Static method `DataContext._match(val, cond)`: when `cond` is an iterable that is
not a str, bytes or dict, membership (`val in cond`, which compares the
elements to `val` with Python `==`); otherwise Python equality
`val == cond`. -/
def DataContext._match (val cond : PyVal) : Bool :=
  if isIterable cond && !isStrBytesDict cond then
    (iterElems cond).any (fun e => pyEq e val)
  else
    pyEq val cond

/-- Normalization of the `keys` / `values` parameters into aligned
`key_seq` / `value_seq` lists.  This block appears verbatim at the top of
both `find` (source lines 80 to 89) and `filter` (source lines 107 to
116); it is factored out here once.  A non-(str, bytes, dict) iterable
`keys` requires `values` to be a non-(str, bytes, dict) iterable of the
same length, else a `ValueError` is raised; any other `keys` is treated as
a single key paired with `values` as a single condition value. -/
def DataContext.normSpecs (keys values : PyVal) :
    Except PyErr (List PyVal × List PyVal) :=
  if isIterable keys && !isStrBytesDict keys then
    if !(isIterable values && !isStrBytesDict values) then
      Except.error (PyErr.valueError "複数キーの場合、values も Iterable である必要があります")
    else if (iterElems keys).length ≠ (iterElems values).length then
      Except.error (PyErr.valueError "keys と values の長さが一致しません")
    else
      Except.ok (iterElems keys, iterElems values)
  else
    Except.ok ([keys], [values])

/-- Pair-by-pair evaluation of the condition on one record, in the order
of `all(self._match(r.get(k), v) for k, v in zip(key_seq, value_seq))`:
each step first evaluates `r.get(k)` — hashing `k`, which raises
`TypeError` on an unhashable key (CPython quotes the offending type name
in the message) — then tests `_match`; a failing pair makes `all`
short-circuit, so the remaining pairs are not evaluated. -/
def condPairs : List (PyVal × PyVal) → Record → Except PyErr Bool
  | [], _ => Except.ok true
  | (k, v) :: rest, r =>
    match hashCheck k with
    | some u =>
        Except.error (PyErr.typeError ("unhashable type: " ++ pyTypeName u))
    | Option.none =>
        if DataContext._match (recordGet r k) v then condPairs rest r
        else Except.ok false

/-- The per-record condition shared by `find` and `filter`. -/
def condHolds (key_seq value_seq : List PyVal) (r : Record) : Except PyErr Bool :=
  condPairs (key_seq.zip value_seq) r

/-- Boolean value of the condition on one record, taken when every key is
hashable (no pair can then raise). -/
def condHoldsB (key_seq value_seq : List PyVal) (r : Record) : Bool :=
  (key_seq.zip value_seq).all (fun kv => DataContext._match (recordGet r kv.1) kv.2)

/-- Model of `next(gen, default)` over the generator
`(r for r in records if p r)`, without the default: the records are tested
one at a time, left to right, so an exception from the condition
propagates, and the generator stops at the first match — records after it
are never tested. -/
def firstMatch (p : Record → Except PyErr Bool) :
    List Record → Except PyErr (Option Record)
  | [] => Except.ok Option.none
  | r :: rs =>
    match p r with
    | Except.error e => Except.error e
    | Except.ok true => Except.ok (some r)
    | Except.ok false => firstMatch p rs

/-- First element of a list satisfying a Boolean predicate (the value
`firstMatch` computes when the condition cannot raise). -/
def firstMatchB (p : Record → Bool) : List Record → Option Record
  | [] => Option.none
  | r :: rs => if p r then some r else firstMatchB p rs

/-- Model of the list comprehension `[r for r in records if p r]`: the
condition is evaluated on the records left to right, so an exception on
the earliest offending record propagates. -/
def filterMatch (p : Record → Except PyErr Bool) :
    List Record → Except PyErr (List Record)
  | [] => Except.ok []
  | r :: rs =>
    match p r with
    | Except.error e => Except.error e
    | Except.ok b =>
      match filterMatch p rs with
      | Except.error e => Except.error e
      | Except.ok out => Except.ok (if b then r :: out else out)

/-- Method `DataContext.find(records, keys, values, default)`: normalize the
condition (raising `ValueError` on a malformed one), then return the first
record matching it — propagating a `TypeError` if the scan hashes an
unhashable condition key — or `default` when no record matches.  The state
is returned unchanged alongside the result: the method body never writes
`self._data` nor any record. -/
def DataContext.find (self : DataContext) (records : List Record)
    (keys values default : PyVal) : Except PyErr (PyVal × DataContext) :=
  match DataContext.normSpecs keys values with
  | Except.error e => Except.error e
  | Except.ok (key_seq, value_seq) =>
    match firstMatch (condHolds key_seq value_seq) records with
    | Except.error e => Except.error e
    | Except.ok (some r) => Except.ok (PyVal.dict r, self)
    | Except.ok Option.none => Except.ok (default, self)

/-- Method `DataContext.filter(records, keys, values)`: normalize the condition
(raising `ValueError` on a malformed one), then return the list of records
matching it, in order — propagating a `TypeError` if the scan hashes an
unhashable condition key.  The state is returned unchanged alongside the
result. -/
def DataContext.filter (self : DataContext) (records : List Record)
    (keys values : PyVal) : Except PyErr (List Record × DataContext) :=
  match DataContext.normSpecs keys values with
  | Except.error e => Except.error e
  | Except.ok (key_seq, value_seq) =>
    match filterMatch (condHolds key_seq value_seq) records with
    | Except.error e => Except.error e
    | Except.ok out => Except.ok (out, self)

/-! ## Helper lemmas -/

theorem hashCheck_str (s : String) : hashCheck (PyVal.str s) = Option.none := by
  rw [hashCheck.eq_def]

theorem firstMatchB_eq_none (p : Record → Bool) (l : List Record)
    (h : firstMatchB p l = Option.none) : ∀ x ∈ l, p x = false := by
  induction l with
  | nil => intro x hx; cases hx
  | cons a as ih =>
    by_cases hp : p a = true
    · simp [firstMatchB, hp] at h
    · intro x hx
      rcases List.mem_cons.mp hx with hx | hx
      · subst hx; exact Bool.eq_false_iff.mpr hp
      · exact ih (by simpa [firstMatchB, hp] using h) x hx

theorem firstMatchB_eq_some_split (p : Record → Bool) (l : List Record) (r : Record)
    (h : firstMatchB p l = some r) :
    ∃ l1 l2, l = l1 ++ r :: l2 ∧ (∀ x ∈ l1, p x = false) ∧ p r = true := by
  induction l with
  | nil => simp [firstMatchB] at h
  | cons a as ih =>
    by_cases hp : p a = true
    · have hr : a = r := by simpa [firstMatchB, hp] using h
      subst hr
      exact ⟨[], as, rfl, ⟨fun x hx => absurd hx (List.not_mem_nil x), hp⟩⟩
    · obtain ⟨l1, l2, h1, h2, h3⟩ := ih (by simpa [firstMatchB, hp] using h)
      refine ⟨a :: l1, l2, by simp [h1], ?_, h3⟩
      intro x hx
      rcases List.mem_cons.mp hx with hx | hx
      · subst hx; exact Bool.eq_false_iff.mpr hp
      · exact h2 x hx

theorem condHolds_hashable (ks vs : List PyVal) (r : Record)
    (h : ∀ k ∈ ks, hashCheck k = Option.none) :
    condHolds ks vs r = Except.ok (condHoldsB ks vs r) := by
  induction ks generalizing vs with
  | nil => cases vs <;> simp [condHolds, condPairs, condHoldsB]
  | cons k ks ih =>
    cases vs with
    | nil => simp [condHolds, condPairs, condHoldsB]
    | cons v vs =>
      have hk : hashCheck k = Option.none := h k (by simp)
      have ih2 := ih vs (fun k2 hk2 => h k2 (by simp [hk2]))
      by_cases hm : DataContext._match (recordGet r k) v = true
      · simpa [condHolds, condPairs, condHoldsB, hk, hm] using ih2
      · simp [condHolds, condPairs, condHoldsB, hk, hm]

theorem firstMatch_hashable (p : Record → Except PyErr Bool) (q : Record → Bool)
    (l : List Record) (h : ∀ r ∈ l, p r = Except.ok (q r)) :
    firstMatch p l = Except.ok (firstMatchB q l) := by
  induction l with
  | nil => simp [firstMatch, firstMatchB]
  | cons r rs ih =>
    have hr := h r (by simp)
    have ih2 := ih (fun x hx => h x (by simp [hx]))
    cases hq : q r with
    | true =>
        rw [hq] at hr
        simp [firstMatch, firstMatchB, hr, hq]
    | false =>
        rw [hq] at hr
        simp [firstMatch, firstMatchB, hr, hq, ih2]

theorem filterMatch_hashable (p : Record → Except PyErr Bool) (q : Record → Bool)
    (l : List Record) (h : ∀ r ∈ l, p r = Except.ok (q r)) :
    filterMatch p l = Except.ok (l.filter q) := by
  induction l with
  | nil => simp [filterMatch]
  | cons r rs ih =>
    have hr := h r (by simp)
    have ih2 := ih (fun x hx => h x (by simp [hx]))
    simp [filterMatch, hr, ih2, List.filter_cons]

theorem firstMatch_mem (p : Record → Except PyErr Bool) (l : List Record) (r : Record)
    (h : firstMatch p l = Except.ok (some r)) : r ∈ l := by
  induction l with
  | nil => simp [firstMatch] at h
  | cons a as ih =>
    cases hp : p a with
    | error e => simp [firstMatch, hp] at h
    | ok b =>
      cases b with
      | true =>
          have : a = r := by simpa [firstMatch, hp] using h
          subst this
          exact List.mem_cons_self a as
      | false =>
          exact List.mem_cons_of_mem _ (ih (by simpa [firstMatch, hp] using h))

theorem filterMatch_sublist (p : Record → Except PyErr Bool) (l out : List Record)
    (h : filterMatch p l = Except.ok out) : out.Sublist l := by
  induction l generalizing out with
  | nil =>
      have : out = [] := by simpa [filterMatch] using h.symm
      subst this
      exact List.nil_sublist []
  | cons r rs ih =>
    cases hp : p r with
    | error e => simp [filterMatch, hp] at h
    | ok b =>
      cases hfl : filterMatch p rs with
      | error e => simp [filterMatch, hp, hfl] at h
      | ok out2 =>
          have hout : (if b = true then r :: out2 else out2) = out := by
            simpa [filterMatch, hp, hfl] using h
          subst hout
          cases b with
          | true => simpa using List.Sublist.cons₂ r (ih out2 hfl)
          | false => simpa using List.Sublist.cons r (ih out2 hfl)

theorem condPairs_error_typeError (pairs : List (PyVal × PyVal)) (r : Record) (e : PyErr)
    (h : condPairs pairs r = Except.error e) : ∃ m, e = PyErr.typeError m := by
  induction pairs with
  | nil => simp [condPairs] at h
  | cons kv rest ih =>
    obtain ⟨k, v⟩ := kv
    cases hk : hashCheck k with
    | some u =>
        have : PyErr.typeError ("unhashable type: " ++ pyTypeName u) = e := by
          simpa [condPairs, hk] using h
        exact ⟨_, this.symm⟩
    | none =>
        by_cases hm : DataContext._match (recordGet r k) v = true
        · exact ih (by simpa [condPairs, hk, hm] using h)
        · simp [condPairs, hk, hm] at h

theorem firstMatch_error_typeError (ks vs : List PyVal) (l : List Record) (e : PyErr)
    (h : firstMatch (condHolds ks vs) l = Except.error e) :
    ∃ m, e = PyErr.typeError m := by
  induction l with
  | nil => simp [firstMatch] at h
  | cons r rs ih =>
    cases hp : condHolds ks vs r with
    | error e2 =>
        have he : e2 = e := by simpa [firstMatch, hp] using h
        subst he
        exact condPairs_error_typeError _ _ _ hp
    | ok b =>
      cases b with
      | true => simp [firstMatch, hp] at h
      | false => exact ih (by simpa [firstMatch, hp] using h)

theorem filterMatch_error_typeError (ks vs : List PyVal) (l : List Record) (e : PyErr)
    (h : filterMatch (condHolds ks vs) l = Except.error e) :
    ∃ m, e = PyErr.typeError m := by
  induction l with
  | nil => simp [filterMatch] at h
  | cons r rs ih =>
    cases hp : condHolds ks vs r with
    | error e2 =>
        have he : e2 = e := by simpa [filterMatch, hp] using h
        subst he
        exact condPairs_error_typeError _ _ _ hp
    | ok b =>
      cases hfl : filterMatch (condHolds ks vs) rs with
      | error e2 =>
          have he : e2 = e := by simpa [filterMatch, hp, hfl] using h
          subst he
          exact ih hfl
      | ok out => simp [filterMatch, hp, hfl] at h

theorem pyDictGet_pyDictSet (d : List (String × PyVal)) (k : String) (v dft : PyVal) :
    pyDictGet (pyDictSet d k v) k dft = v := by
  induction d with
  | nil => simp [pyDictSet, pyDictGet]
  | cons p rest ih =>
    by_cases hk : p.1 = k
    · simp [pyDictSet, pyDictGet, hk]
    · simp [pyDictSet, pyDictGet, hk, ih]

theorem pyDictSet_pyDictSet (d : List (String × PyVal)) (k : String) (v v2 : PyVal) :
    pyDictSet (pyDictSet d k v) k v2 = pyDictSet d k v2 := by
  induction d with
  | nil => simp [pyDictSet]
  | cons p rest ih =>
    by_cases hk : p.1 = k
    · simp [pyDictSet, hk]
    · simp [pyDictSet, hk, ih]

theorem keys_pyDictSet (d : List (String × PyVal)) (k : String) (v : PyVal) :
    (pyDictSet d k v).map Prod.fst
      = if k ∈ d.map Prod.fst then d.map Prod.fst else d.map Prod.fst ++ [k] := by
  induction d with
  | nil => simp [pyDictSet]
  | cons p rest ih =>
    by_cases hk : p.1 = k
    · simp [pyDictSet, hk]
    · have hne : ¬ k = p.1 := fun h => hk h.symm
      by_cases hmem : k ∈ rest.map Prod.fst
      · simp [pyDictSet, hk, ih, hmem, hne]
      · simp [pyDictSet, hk, ih, hmem, hne]

theorem nodup_keys_pyDictSet (d : List (String × PyVal)) (k : String) (v : PyVal)
    (h : (d.map Prod.fst).Nodup) : ((pyDictSet d k v).map Prod.fst).Nodup := by
  rw [keys_pyDictSet]
  by_cases hmem : k ∈ d.map Prod.fst
  · simpa [hmem] using h
  · simp only [hmem, if_false]
    exact List.Nodup.append h (List.nodup_singleton k)
      (by simpa [List.disjoint_singleton] using hmem)

/-! ## C1: the per-pair match rule -/

/-- Match rule as the specification words it (with equality read as Python
equality): when the condition value is a non-string, non-bytes, non-mapping
iterable, membership of the record value in it; otherwise equality of the
record value and the condition value. -/
def specMatchRule (rv cond : PyVal) : Prop :=
  if isIterable cond && !isStrBytesDict cond then
    ∃ e ∈ iterElems cond, pyEq e rv = true
  else
    pyEq rv cond = true

/-- C1, counterexample to the original claim: the condition value `1` is
not a membership collection, so the equality branch applies, yet the
record value `True`, of a different type than `1`, does match it —
Python equality is not type-exact on booleans versus integers. -/
theorem c1_counterexample :
    DataContext._match (PyVal.bool true) (PyVal.int 1) = true
    ∧ (isIterable (PyVal.int 1) && !isStrBytesDict (PyVal.int 1)) = false
    ∧ PyVal.bool true ≠ PyVal.int 1 := by
  refine ⟨?_, rfl, fun h => PyVal.noConfusion h⟩
  simp [DataContext._match, isIterable, isStrBytesDict, isStr, isBytes, isDict, pyEq]

/-- C1 (amended): a (field, value) pair matches via membership when the
condition value is a non-string, non-bytes, non-mapping iterable, and via
Python equality otherwise; Python equality is type-exact except that a
boolean equals the integer of its numeric value (`True == 1`,
`False == 0`). -/
theorem c1_match_rule (val cond : PyVal) :
    (DataContext._match val cond = true ↔ specMatchRule val cond)
    ∧ (∀ b : Bool, ∀ n : Int,
        pyEq (PyVal.bool b) (PyVal.int n) = ((if b then (1 : Int) else 0) == n))
    ∧ (∀ s : String, ∀ n : Int, pyEq (PyVal.str s) (PyVal.int n) = false) := by
  refine ⟨?_, ?_, ?_⟩
  · unfold DataContext._match specMatchRule
    by_cases hc : (isIterable cond && !isStrBytesDict cond) = true
    · simp [hc, List.any_eq_true]
    · simp [hc]
  · intro b n
    rw [pyEq.eq_def]
  · intro s n
    rw [pyEq.eq_def]

/-! ## C2: find returns the earliest match, else the default -/

/-- C2, counterexample to the original claim: the fieldSpec `{}` (an empty
dict) passes validation — it lands in the single-key branch — yet with a
nonempty record list `find` raises `TypeError` when `r.get({})` hashes the
dict key, instead of returning the first match or the default. -/
theorem c2_counterexample :
    DataContext.normSpecs (PyVal.dict []) (PyVal.int 5)
      = Except.ok ([PyVal.dict []], [PyVal.int 5])
    ∧ DataContext.find { _data := [] } [[("a", PyVal.int 1)]]
        (PyVal.dict []) (PyVal.int 5) PyVal.none
      = Except.error (PyErr.typeError "unhashable type: dict") := by
  refine ⟨rfl, ?_⟩
  simp [DataContext.find, DataContext.normSpecs, isIterable, isStrBytesDict, isStr,
    isBytes, isDict, firstMatch, condHolds, condPairs, hashCheck, pyTypeName]

/-- C2 (amended): with a condition passing validation whose normalized
keys are all hashable — as the keys of any string fieldSpec or sequence of
string field names are — `find` returns the first record of the sequence
satisfying the condition (the records before it all fail the condition),
and returns the default, with the store state untouched, when no record
matches, in particular on an empty sequence.  An unhashable key (a list or
dict) in the fieldSpec instead raises `TypeError` when the scan reaches
it. -/
theorem c2_find_first (self : DataContext) (records : List Record)
    (keys values default : PyVal) (ks vs : List PyVal)
    (hn : DataContext.normSpecs keys values = Except.ok (ks, vs))
    (hk : ∀ k ∈ ks, hashCheck k = Option.none) :
    (∃ l1 rec l2, records = l1 ++ rec :: l2
        ∧ (∀ x ∈ l1, condHoldsB ks vs x = false)
        ∧ condHoldsB ks vs rec = true
        ∧ DataContext.find self records keys values default
            = Except.ok (PyVal.dict rec, self))
    ∨ ((∀ rec ∈ records, condHoldsB ks vs rec = false)
        ∧ DataContext.find self records keys values default
            = Except.ok (default, self)) := by
  have hfm := firstMatch_hashable (condHolds ks vs) (condHoldsB ks vs) records
    (fun r _ => condHolds_hashable ks vs r hk)
  cases hfmb : firstMatchB (condHoldsB ks vs) records with
  | none =>
      right
      rw [hfmb] at hfm
      exact ⟨firstMatchB_eq_none _ _ hfmb, by simp [DataContext.find, hn, hfm]⟩
  | some rec =>
      left
      rw [hfmb] at hfm
      obtain ⟨l1, l2, h1, h2, h3⟩ := firstMatchB_eq_some_split _ _ _ hfmb
      exact ⟨l1, rec, l2, h1, h2, h3, by simp [DataContext.find, hn, hfm]⟩

/-- Witness for C2 at the specification's own example: records
`[{"column_A": "hoge"}, {"column_A": "fuga"}]` queried with field
`"column_A"` and value `"hoge"`. -/
theorem c2_find_first_witness :
    (∃ l1 rec l2,
        ([[("column_A", PyVal.str "hoge")], [("column_A", PyVal.str "fuga")]] : List Record)
            = l1 ++ rec :: l2
        ∧ (∀ x ∈ l1, condHoldsB [PyVal.str "column_A"] [PyVal.str "hoge"] x = false)
        ∧ condHoldsB [PyVal.str "column_A"] [PyVal.str "hoge"] rec = true
        ∧ DataContext.find { _data := [] }
            [[("column_A", PyVal.str "hoge")], [("column_A", PyVal.str "fuga")]]
            (PyVal.str "column_A") (PyVal.str "hoge") PyVal.none
            = Except.ok (PyVal.dict rec, { _data := [] }))
    ∨ ((∀ rec ∈ ([[("column_A", PyVal.str "hoge")], [("column_A", PyVal.str "fuga")]] : List Record),
          condHoldsB [PyVal.str "column_A"] [PyVal.str "hoge"] rec = false)
        ∧ DataContext.find { _data := [] }
            [[("column_A", PyVal.str "hoge")], [("column_A", PyVal.str "fuga")]]
            (PyVal.str "column_A") (PyVal.str "hoge") PyVal.none
            = Except.ok (PyVal.none, { _data := [] })) :=
  c2_find_first { _data := [] }
    [[("column_A", PyVal.str "hoge")], [("column_A", PyVal.str "fuga")]]
    (PyVal.str "column_A") (PyVal.str "hoge") PyVal.none
    [PyVal.str "column_A"] [PyVal.str "hoge"] rfl
    (by
      intro k hk2
      rw [List.mem_singleton] at hk2
      subst hk2
      exact hashCheck_str "column_A")

/-! ## C3: filter returns exactly the matching records, in order -/

/-- C3, counterexample to the original claim: `filter([{"a": 1}], {}, 5)`
— the fieldSpec `{}` passes validation into the single-key branch — raises
`TypeError` when `r.get({})` hashes the dict key, instead of returning the
sequence of matching records. -/
theorem c3_counterexample :
    DataContext.normSpecs (PyVal.dict []) (PyVal.int 5)
      = Except.ok ([PyVal.dict []], [PyVal.int 5])
    ∧ DataContext.filter { _data := [] } [[("a", PyVal.int 1)]]
        (PyVal.dict []) (PyVal.int 5)
      = Except.error (PyErr.typeError "unhashable type: dict") := by
  refine ⟨rfl, ?_⟩
  simp [DataContext.filter, DataContext.normSpecs, isIterable, isStrBytesDict, isStr,
    isBytes, isDict, filterMatch, condHolds, condPairs, hashCheck, pyTypeName]

/-- C3 (amended): with a condition passing validation whose normalized
keys are all hashable — as the keys of any string fieldSpec or sequence of
string field names are — `filter` returns a sublist of the input (so in
original order), containing exactly the records that satisfy the
condition, and the empty list when the input is empty; the result is
always a list, never an absent value.  An unhashable key (a list or dict)
in the fieldSpec instead raises `TypeError` when the scan reaches it. -/
theorem c3_filter_all (self : DataContext) (records : List Record)
    (keys values : PyVal) (ks vs : List PyVal)
    (hn : DataContext.normSpecs keys values = Except.ok (ks, vs))
    (hk : ∀ k ∈ ks, hashCheck k = Option.none) :
    ∃ out, DataContext.filter self records keys values = Except.ok (out, self)
      ∧ out.Sublist records
      ∧ (∀ r ∈ out, condHoldsB ks vs r = true)
      ∧ (∀ r ∈ records, condHoldsB ks vs r = true → r ∈ out)
      ∧ (records = [] → out = []) := by
  have hfl := filterMatch_hashable (condHolds ks vs) (condHoldsB ks vs) records
    (fun r _ => condHolds_hashable ks vs r hk)
  refine ⟨records.filter (condHoldsB ks vs), by simp [DataContext.filter, hn, hfl],
    List.filter_sublist _, ?_, ?_, ?_⟩
  · intro r hr
    exact List.of_mem_filter hr
  · intro r hr hc
    exact List.mem_filter_of_mem hr hc
  · intro h
    subst h
    rfl

/-- Witness for C3 at the specification's own example: records
`[{"a": 1}, {"a": 2}, {"a": 3}]` filtered by membership of field `"a"`
in `[1, 3]`. -/
theorem c3_filter_all_witness :
    ∃ out, DataContext.filter { _data := [] }
        [[("a", PyVal.int 1)], [("a", PyVal.int 2)], [("a", PyVal.int 3)]]
        (PyVal.str "a") (PyVal.list [PyVal.int 1, PyVal.int 3])
        = Except.ok (out, { _data := [] })
      ∧ out.Sublist [[("a", PyVal.int 1)], [("a", PyVal.int 2)], [("a", PyVal.int 3)]]
      ∧ (∀ r ∈ out, condHoldsB [PyVal.str "a"] [PyVal.list [PyVal.int 1, PyVal.int 3]] r = true)
      ∧ (∀ r ∈ ([[("a", PyVal.int 1)], [("a", PyVal.int 2)], [("a", PyVal.int 3)]] : List Record),
          condHoldsB [PyVal.str "a"] [PyVal.list [PyVal.int 1, PyVal.int 3]] r = true → r ∈ out)
      ∧ (([[("a", PyVal.int 1)], [("a", PyVal.int 2)], [("a", PyVal.int 3)]] : List Record) = []
          → out = []) :=
  c3_filter_all { _data := [] }
    [[("a", PyVal.int 1)], [("a", PyVal.int 2)], [("a", PyVal.int 3)]]
    (PyVal.str "a") (PyVal.list [PyVal.int 1, PyVal.int 3])
    [PyVal.str "a"] [PyVal.list [PyVal.int 1, PyVal.int 3]] rfl
    (by
      intro k hk2
      rw [List.mem_singleton] at hk2
      subst hk2
      exact hashCheck_str "a")

/-! ## C4: when exactly find and filter raise a validation error -/

/-- Validation-failure condition exactly as the original claim words it:
`fieldSpec` a non-string, non-mapping iterable, and `valueSpec` either not
a non-string, non-mapping iterable or of differing length.  (Byte strings
are not excluded here, unlike in the code.) -/
def claimedRaiseCond (keys values : PyVal) : Bool :=
  (isIterable keys && !(isStr keys || isDict keys)) &&
    (!(isIterable values && !(isStr values || isDict values))
      || (iterElems keys).length != (iterElems values).length)

/-- Validation-failure condition of the code (the claim amended with the
`bytes` exclusion): `keys` a non-str/bytes/dict iterable, and `values`
either not a non-str/bytes/dict iterable or of differing length. -/
def amendedRaiseCond (keys values : PyVal) : Bool :=
  (isIterable keys && !isStrBytesDict keys) &&
    (!(isIterable values && !isStrBytesDict values)
      || (iterElems keys).length != (iterElems values).length)

/-- C4, counterexample to the original claim, in both directions.  First:
with `fieldSpec = ("a",)` and `valueSpec = b"a"` (one byte string, arity 1
on both sides), the claim's condition does not hold — `b"a"` is a
non-string, non-mapping iterable of matching length — so the claim
predicts success, yet the code raises its validation error, because its
`isinstance` exclusion tuple also contains `bytes`.  Second: with
`fieldSpec = {}` and `valueSpec = 5` the claim's condition does not hold
either, and no validation error is raised, yet `find` on a nonempty record
list still fails, with `TypeError` from hashing the dict key — so "in
every other case the operation completes without error" is also false. -/
theorem c4_counterexample :
    claimedRaiseCond (PyVal.tuple [PyVal.str "a"]) (PyVal.bytes [97]) = false
    ∧ DataContext.filter { _data := [] } []
        (PyVal.tuple [PyVal.str "a"]) (PyVal.bytes [97])
      = Except.error
          (PyErr.valueError "複数キーの場合、values も Iterable である必要があります")
    ∧ DataContext.find { _data := [] } []
        (PyVal.tuple [PyVal.str "a"]) (PyVal.bytes [97]) PyVal.none
      = Except.error
          (PyErr.valueError "複数キーの場合、values も Iterable である必要があります")
    ∧ claimedRaiseCond (PyVal.dict []) (PyVal.int 5) = false
    ∧ DataContext.find { _data := [] } [[("a", PyVal.int 1)]]
        (PyVal.dict []) (PyVal.int 5) PyVal.none
      = Except.error (PyErr.typeError "unhashable type: dict") := by
  refine ⟨rfl, rfl, rfl, rfl, ?_⟩
  simp [DataContext.find, DataContext.normSpecs, isIterable, isStrBytesDict, isStr,
    isBytes, isDict, firstMatch, condHolds, condPairs, hashCheck, pyTypeName]

/-- The normalization block fails exactly on the amended condition. -/
theorem normSpecs_error_iff (keys values : PyVal) :
    (∃ e, DataContext.normSpecs keys values = Except.error e)
    ↔ amendedRaiseCond keys values = true := by
  by_cases h1 : (isIterable keys && !isStrBytesDict keys) = true
  · by_cases h2 : (isIterable values && !isStrBytesDict values) = true
    · by_cases h3 : (iterElems keys).length = (iterElems values).length
      · simp [DataContext.normSpecs, amendedRaiseCond, h1, h2, h3]
      · simp [DataContext.normSpecs, amendedRaiseCond, h1, h2, h3]
    · simp [DataContext.normSpecs, amendedRaiseCond, h1, h2]
  · simp [DataContext.normSpecs, amendedRaiseCond, h1]

/-- The normalization block only ever fails with a `ValueError`. -/
theorem normSpecs_error_valueError (keys values : PyVal) (e : PyErr)
    (h : DataContext.normSpecs keys values = Except.error e) :
    ∃ m, e = PyErr.valueError m := by
  by_cases h1 : (isIterable keys && !isStrBytesDict keys) = true
  · by_cases h2 : (isIterable values && !isStrBytesDict values) = true
    · by_cases h3 : (iterElems keys).length = (iterElems values).length
      · simp [DataContext.normSpecs, h1, h2, h3] at h
      · simp [DataContext.normSpecs, h1, h2, h3] at h
        first
        | exact ⟨_, h⟩
        | exact ⟨_, h.symm⟩
    · simp [DataContext.normSpecs, h1, h2] at h
      first
      | exact ⟨_, h⟩
      | exact ⟨_, h.symm⟩
  · simp [DataContext.normSpecs, h1] at h

/-- C4 (amended): `find` and `filter` raise a validation error
(`ValueError`) if and only if `fieldSpec` is a non-string, non-bytes,
non-mapping iterable and either `valueSpec` is not a non-string,
non-bytes, non-mapping iterable or the two sequences have differing
lengths; in every other case no validation error is raised, and — when the
normalized condition keys are moreover all hashable, as they are for any
single-string `fieldSpec` or sequence of string field names — the
operation completes without error (an unhashable key, a list or dict, in
the fieldSpec can instead raise `TypeError` during the scan).  `set`,
`get` and `deinit` are total functions of their inputs and never fail. -/
theorem c4_error_iff (self : DataContext) (records : List Record)
    (keys values default : PyVal) :
    ((∃ m, DataContext.find self records keys values default
        = Except.error (PyErr.valueError m))
      ↔ amendedRaiseCond keys values = true)
    ∧ ((∃ m, DataContext.filter self records keys values
        = Except.error (PyErr.valueError m))
      ↔ amendedRaiseCond keys values = true)
    ∧ (∀ ks vs, DataContext.normSpecs keys values = Except.ok (ks, vs)
        → (∀ k ∈ ks, hashCheck k = Option.none)
        → (∃ res, DataContext.find self records keys values default = Except.ok res)
          ∧ ∃ res2, DataContext.filter self records keys values = Except.ok res2) := by
  refine ⟨?_, ?_, ?_⟩
  · constructor
    · rintro ⟨m, hm⟩
      cases hn : DataContext.normSpecs keys values with
      | error e =>
          exact (normSpecs_error_iff keys values).mp ⟨e, hn⟩
      | ok p =>
          obtain ⟨ks, vs⟩ := p
          cases hfm : firstMatch (condHolds ks vs) records with
          | error e2 =>
              obtain ⟨m2, hm2⟩ := firstMatch_error_typeError ks vs records e2 hfm
              subst hm2
              simp [DataContext.find, hn, hfm] at hm
          | ok o =>
              cases o with
              | none => simp [DataContext.find, hn, hfm] at hm
              | some rec => simp [DataContext.find, hn, hfm] at hm
    · intro ha
      obtain ⟨e, hn⟩ := (normSpecs_error_iff keys values).mpr ha
      obtain ⟨m, hm⟩ := normSpecs_error_valueError keys values e hn
      subst hm
      exact ⟨m, by simp [DataContext.find, hn]⟩
  · constructor
    · rintro ⟨m, hm⟩
      cases hn : DataContext.normSpecs keys values with
      | error e =>
          exact (normSpecs_error_iff keys values).mp ⟨e, hn⟩
      | ok p =>
          obtain ⟨ks, vs⟩ := p
          cases hfl : filterMatch (condHolds ks vs) records with
          | error e2 =>
              obtain ⟨m2, hm2⟩ := filterMatch_error_typeError ks vs records e2 hfl
              subst hm2
              simp [DataContext.filter, hn, hfl] at hm
          | ok out => simp [DataContext.filter, hn, hfl] at hm
    · intro ha
      obtain ⟨e, hn⟩ := (normSpecs_error_iff keys values).mpr ha
      obtain ⟨m, hm⟩ := normSpecs_error_valueError keys values e hn
      subst hm
      exact ⟨m, by simp [DataContext.filter, hn]⟩
  · intro ks vs hn hk
    have hfm := firstMatch_hashable (condHolds ks vs) (condHoldsB ks vs) records
      (fun r _ => condHolds_hashable ks vs r hk)
    have hfl := filterMatch_hashable (condHolds ks vs) (condHoldsB ks vs) records
      (fun r _ => condHolds_hashable ks vs r hk)
    constructor
    · cases hfmb : firstMatchB (condHoldsB ks vs) records with
      | none =>
          rw [hfmb] at hfm
          exact ⟨(default, self), by simp [DataContext.find, hn, hfm]⟩
      | some rec =>
          rw [hfmb] at hfm
          exact ⟨(PyVal.dict rec, self), by simp [DataContext.find, hn, hfm]⟩
    · exact ⟨(records.filter (condHoldsB ks vs), self),
        by simp [DataContext.filter, hn, hfl]⟩

/-! ## C5: absent fields resolve to the missing sentinel None -/

/-- C5: a record lacking a condition field resolves it to the `None`
sentinel — `r.get(k)` — so the pair matches exactly when the match rule
applied to the sentinel itself succeeds; in particular a concrete expected
value (an integer, string or boolean) or a membership collection none of
whose elements equals `None` never matches. -/
theorem c5_missing_field (r : Record) (k : String) (v : PyVal)
    (h : lookupStr r k = Option.none) :
    recordGet r (PyVal.str k) = PyVal.none
    ∧ DataContext._match (recordGet r (PyVal.str k)) v
        = DataContext._match PyVal.none v
    ∧ (DataContext._match PyVal.none v = false
        → DataContext._match (recordGet r (PyVal.str k)) v = false)
    ∧ (∀ n : Int, DataContext._match PyVal.none (PyVal.int n) = false)
    ∧ (∀ s : String, DataContext._match PyVal.none (PyVal.str s) = false)
    ∧ (∀ b : Bool, DataContext._match PyVal.none (PyVal.bool b) = false)
    ∧ (∀ es : List PyVal, (∀ e ∈ es, pyEq e PyVal.none = false)
        → DataContext._match PyVal.none (PyVal.list es) = false)
    ∧ (∀ es : List PyVal, (∀ e ∈ es, pyEq e PyVal.none = false)
        → DataContext._match PyVal.none (PyVal.tuple es) = false) := by
  have hget : recordGet r (PyVal.str k) = PyVal.none := by
    simp [recordGet, h]
  refine ⟨hget, by rw [hget], by rw [hget]; exact fun hf => hf, ?_, ?_, ?_, ?_, ?_⟩
  · intro n
    have hpe : pyEq PyVal.none (PyVal.int n) = false := by rw [pyEq.eq_def]
    simp [DataContext._match, isIterable, isStrBytesDict, isStr, isBytes, isDict, hpe]
  · intro s
    have hpe : pyEq PyVal.none (PyVal.str s) = false := by rw [pyEq.eq_def]
    simp [DataContext._match, isIterable, isStrBytesDict, isStr, isBytes, isDict, hpe]
  · intro b
    have hpe : pyEq PyVal.none (PyVal.bool b) = false := by rw [pyEq.eq_def]
    simp [DataContext._match, isIterable, isStrBytesDict, isStr, isBytes, isDict, hpe]
  · intro es hes
    unfold DataContext._match
    simp only [isIterable, isStrBytesDict, isStr, isBytes, isDict, iterElems]
    simpa [List.any_eq_false] using hes
  · intro es hes
    unfold DataContext._match
    simp only [isIterable, isStrBytesDict, isStr, isBytes, isDict, iterElems]
    simpa [List.any_eq_false] using hes

/-- Witness for C5: the record `{"b": 1}` lacks field `"a"`, and the pair
(`"a"`, `5`) does not match it. -/
theorem c5_missing_field_witness :
    DataContext._match (recordGet [("b", PyVal.int 1)] (PyVal.str "a")) (PyVal.int 5)
      = false :=
  (c5_missing_field [("b", PyVal.int 1)] "a" (PyVal.int 5) rfl).2.2.1
    ((c5_missing_field [("b", PyVal.int 1)] "a" (PyVal.int 5) rfl).2.2.2.1 5)

/-! ## C6: set/get round trip and last set wins -/

/-- C6: `get` immediately after `set` returns the value just stored; a
second `set` on the same key overwrites — the state after `set k v` then
`set k v2` is exactly the state after `set k v2` alone, and `get` then
returns `v2`; and `set` preserves uniqueness of keys in the store, so the
store holds at most one value per key. -/
theorem c6_set_get (self : DataContext) (k : String) (v v2 d : PyVal)
    (h : (self._data.map Prod.fst).Nodup) :
    DataContext.get (DataContext.set self k v) k d = v
    ∧ DataContext.set (DataContext.set self k v) k v2 = DataContext.set self k v2
    ∧ DataContext.get (DataContext.set (DataContext.set self k v) k v2) k d = v2
    ∧ (((DataContext.set self k v)._data).map Prod.fst).Nodup := by
  refine ⟨pyDictGet_pyDictSet _ _ _ _, ?_, pyDictGet_pyDictSet _ _ _ _, ?_⟩
  · show DataContext.mk (pyDictSet (pyDictSet self._data k v) k v2)
        = DataContext.mk (pyDictSet self._data k v2)
    rw [pyDictSet_pyDictSet]
  · exact nodup_keys_pyDictSet _ _ _ h

/-- Witness for C6 on the empty store with key `"k"` and values `1`
then `2`. -/
theorem c6_set_get_witness :
    DataContext.get (DataContext.set { _data := [] } "k" (PyVal.int 1)) "k" PyVal.none
      = PyVal.int 1
    ∧ DataContext.set (DataContext.set { _data := [] } "k" (PyVal.int 1)) "k" (PyVal.int 2)
      = DataContext.set { _data := [] } "k" (PyVal.int 2)
    ∧ DataContext.get
        (DataContext.set (DataContext.set { _data := [] } "k" (PyVal.int 1)) "k" (PyVal.int 2))
        "k" PyVal.none
      = PyVal.int 2
    ∧ (((DataContext.set { _data := [] } "k" (PyVal.int 1))._data).map Prod.fst).Nodup :=
  c6_set_get { _data := [] } "k" (PyVal.int 1) (PyVal.int 2) PyVal.none List.nodup_nil

/-! ## C7: reset empties the store and is idempotent -/

/-- C7: after `deinit` (the reset operation) every `get`, on every key —
previously set or not — returns the supplied default, and `deinit` is
idempotent: applying it twice gives the same state as applying it once. -/
theorem c7_reset_empties (self : DataContext) (k : String) (d : PyVal) :
    DataContext.get (DataContext.deinit self) k d = d
    ∧ DataContext.deinit (DataContext.deinit self) = DataContext.deinit self
    ∧ (DataContext.deinit self)._data = [] :=
  ⟨rfl, rfl, rfl⟩

/-! ## C8: construction is a singleton -/

/-- C8: the first construction creates the single instance with an empty
data map; every later construction request — any number of them — returns
that same instance, with its stored data intact, never re-initializing the
map. -/
theorem c8_singleton (inst : DataContext) (n : Nat) :
    DataContext.new (some inst) = (inst, some inst)
    ∧ constructN n (some inst) = (inst, some inst)
    ∧ DataContext.new Option.none = ({ _data := [] }, some { _data := [] }) := by
  refine ⟨rfl, ?_, rfl⟩
  induction n with
  | zero => rfl
  | succ m ih => simpa [constructN, DataContext.new] using ih

/-! ## C9: find and filter mutate neither the records nor the store -/

/-- C9: whatever the arguments — any fieldSpec, valueSpec, records and
default, with no validation or hashability restriction — whenever `find`
or `filter` returns a result, the store state comes back exactly as it
was, `filter`'s output is a sublist of the input records (the record
values themselves, unmodified), and a record returned by `find` is the
default or one of the input records, unmodified.  The method bodies
contain no assignment to `self._data` or to any record; the embedding's
operations are pure functions that return the input state, and on the
error paths (`ValueError`, `TypeError`) they abort without having built
any state at all. -/
theorem c9_no_mutation (self : DataContext) (records : List Record)
    (keys values default : PyVal) :
    (∀ res st, DataContext.find self records keys values default = Except.ok (res, st)
        → st = self ∧ (res = default ∨ ∃ rec ∈ records, res = PyVal.dict rec))
    ∧ (∀ out st, DataContext.filter self records keys values = Except.ok (out, st)
        → st = self ∧ out.Sublist records) := by
  constructor
  · intro res st h
    cases hn : DataContext.normSpecs keys values with
    | error e => simp [DataContext.find, hn] at h
    | ok p =>
        obtain ⟨ks, vs⟩ := p
        cases hfm : firstMatch (condHolds ks vs) records with
        | error e => simp [DataContext.find, hn, hfm] at h
        | ok o =>
            cases o with
            | none =>
                have h2 : default = res ∧ self = st := by
                  simpa [DataContext.find, hn, hfm] using h
                exact ⟨h2.2.symm, Or.inl h2.1.symm⟩
            | some rec =>
                have h2 : PyVal.dict rec = res ∧ self = st := by
                  simpa [DataContext.find, hn, hfm] using h
                exact ⟨h2.2.symm,
                  Or.inr ⟨rec, firstMatch_mem _ _ _ hfm, h2.1.symm⟩⟩
  · intro out st h
    cases hn : DataContext.normSpecs keys values with
    | error e => simp [DataContext.filter, hn] at h
    | ok p =>
        obtain ⟨ks, vs⟩ := p
        cases hfl : filterMatch (condHolds ks vs) records with
        | error e => simp [DataContext.filter, hn, hfl] at h
        | ok out2 =>
            have h2 : out2 = out ∧ self = st := by
              simpa [DataContext.filter, hn, hfl] using h
            rw [h2.2.symm, h2.1.symm] at *
            exact ⟨rfl, filterMatch_sublist _ _ _ hfl⟩

/-- Witness for C9 on a one-record list and the single condition
(`"a"`, `1`), starting from a store holding key `"x"`: the state returned
by `filter` is the input state and the output is a sublist of the input
records. -/
theorem c9_no_mutation_witness :
    ({ _data := [("x", PyVal.int 7)] } : DataContext) = { _data := [("x", PyVal.int 7)] }
    ∧ ([[("a", PyVal.int 1)]] : List Record).Sublist [[("a", PyVal.int 1)]] := by
  have hf : DataContext.filter { _data := [("x", PyVal.int 7)] } [[("a", PyVal.int 1)]]
      (PyVal.str "a") (PyVal.int 1)
      = Except.ok ([[("a", PyVal.int 1)]], { _data := [("x", PyVal.int 7)] }) := by
    simp [DataContext.filter, DataContext.normSpecs, isIterable, isStrBytesDict, isStr,
      isBytes, isDict, filterMatch, condHolds, condPairs, hashCheck, recordGet,
      lookupStr, DataContext._match, iterElems, pyEq]
  have h := (c9_no_mutation { _data := [("x", PyVal.int 7)] } [[("a", PyVal.int 1)]]
      (PyVal.str "a") (PyVal.int 1) PyVal.none).2
      [[("a", PyVal.int 1)]] { _data := [("x", PyVal.int 7)] } hf
  exact ⟨h.1, h.2⟩

/-! ## C10: results do not depend on the store contents -/

/-- C10: `find` and `filter` read only their explicit arguments — for any
two store states, however different, the same call yields the same result
(including the same error on a malformed condition). -/
theorem c10_noninterference (s1 s2 : DataContext) (records : List Record)
    (keys values default : PyVal) :
    (DataContext.find s1 records keys values default).map Prod.fst
      = (DataContext.find s2 records keys values default).map Prod.fst
    ∧ (DataContext.filter s1 records keys values).map Prod.fst
      = (DataContext.filter s2 records keys values).map Prod.fst := by
  cases hn : DataContext.normSpecs keys values with
  | error e => simp [DataContext.find, DataContext.filter, hn]
  | ok p =>
      obtain ⟨ks, vs⟩ := p
      constructor
      · cases hfm : firstMatch (condHolds ks vs) records with
        | error e => simp [DataContext.find, hn, hfm]
        | ok o => cases o <;> simp [DataContext.find, hn, hfm, Except.map]
      · cases hfl : filterMatch (condHolds ks vs) records with
        | error e => simp [DataContext.filter, hn, hfl]
        | ok out => simp [DataContext.filter, hn, hfl, Except.map]
